import Mathlib

/-!
Verification of the response-lifecycle coordinator of the Qolaba proxy
(`src/utils/responseState.js` and `src/utils/responseManager.js`).

The JavaScript classes are shallowly embedded as Lean structures and pure
functions.  External collaborators (the HTTP transport, the logger, the
handler and error-handler callbacks) are modelled as parameters: every
potential invocation of a transport primitive takes its outcome
(`Except String _`, where `.error e` stands for a thrown exception) as an
argument, and the logger is treated as a total no-op, matching the spec's
requirement that logging never crashes the request.  Transport invocations
are instrumented by counters / lists on the state so that "the transport
received at most one real write" is expressible.
-/

/-- Decidable equality for `Except`, used so that concrete runs of the
model can be settled by `decide`. -/
instance {ε α : Type} [DecidableEq ε] [DecidableEq α] : DecidableEq (Except ε α) := fun a b =>
  match a, b with
  | .ok x, .ok y =>
    if h : x = y then isTrue (by rw [h]) else isFalse (by intro hc; cases hc; exact h rfl)
  | .error x, .error y =>
    if h : x = y then isTrue (by rw [h]) else isFalse (by intro hc; cases hc; exact h rfl)
  | .ok _, .error _ => isFalse (by intro hc; cases hc)
  | .error _, .ok _ => isFalse (by intro hc; cases hc)

/-- State of one `ResponseState` instance (`responseState.js`, constructor
lines 7-30), together with instrumentation of the transport invocations
made through the stored original methods:
`headWrites` records the status codes passed to `originalWriteHead`,
`chunkWrites` the payloads passed to `originalWrite`, `endWrites` counts
`originalEnd` invocations, `socketDestroys` counts `res.socket.destroy()`
invocations and `destroyCalls` counts calls of `ResponseState.destroy`. -/
structure ResponseState where
  isHeadersSent : Bool := false
  isEnded : Bool := false
  isDestroyed : Bool := false
  isStreaming : Bool := false
  streamingCompleted : Bool := false
  isTerminationInProgress : Bool := false
  terminationReason : Option String := none
  headWrites : List Nat := []
  chunkWrites : List String := []
  endWrites : Nat := 0
  socketDestroys : Nat := 0
  destroyCalls : Nat := 0
deriving Repr, DecidableEq

/-- The state produced by the `ResponseState` constructor. -/
def ResponseState.initial : ResponseState := {}

namespace ResponseState

/-- `res.canWrite` (lines 115-117): `!isEnded && !isDestroyed`. -/
def canWrite (s : ResponseState) : Bool :=
  !s.isEnded && !s.isDestroyed

/-- `res.canWriteHeaders` (lines 120-122):
`!isHeadersSent && !isEnded && !isDestroyed`. -/
def canWriteHeaders (s : ResponseState) : Bool :=
  !s.isHeadersSent && !s.isEnded && !s.isDestroyed

/-- The `res.writeHead` override (lines 36-47).  If headers were already
sent it logs and returns `false`; otherwise it sets `isHeadersSent`
*before* forwarding to `originalWriteHead`, whose outcome is the `out`
parameter (`.error e` = the transport threw). -/
def res_writeHead (status : Nat) (out : Except String Unit) (s : ResponseState) :
    Except String Bool × ResponseState :=
  if s.isHeadersSent then (.ok false, s)
  else
    let s' := { s with isHeadersSent := true, headWrites := s.headWrites ++ [status] }
    match out with
    | .ok _ => (.ok true, s')
    | .error e => (.error e, s')

/-- The `res.write` override (lines 50-66). -/
def res_write (out : Except String Bool) (data : String) (s : ResponseState) :
    Except String Bool × ResponseState :=
  if s.isEnded then (.ok false, s)
  else if s.isDestroyed then (.ok false, s)
  else
    let s' := { s with chunkWrites := s.chunkWrites ++ [data] }
    match out with
    | .ok b => (.ok b, s')
    | .error e => (.error e, s')

/-- The `res.end` override (lines 69-83): a second `end` is a logged
no-op; the first sets `isEnded`, completes streaming if one was active,
and forwards to `originalEnd`. -/
def res_end (out : Except String Unit) (s : ResponseState) :
    Except String Bool × ResponseState :=
  if s.isEnded then (.ok false, s)
  else
    let s1 := { s with isEnded := true }
    let s2 := if s1.isStreaming && !s1.streamingCompleted then
        { s1 with streamingCompleted := true } else s1
    let s3 := { s2 with endWrites := s2.endWrites + 1 }
    match out with
    | .ok _ => (.ok true, s3)
    | .error e => (.error e, s3)

/-- `res.safeWriteHead` (lines 86-91).  Note that, unlike the `writeHead`
override, it forwards to `originalWriteHead` without setting
`isHeadersSent`. -/
def res_safeWriteHead (status : Nat) (out : Except String Unit) (s : ResponseState) :
    Except String Bool × ResponseState :=
  if !s.isHeadersSent && !s.isEnded then
    let s' := { s with headWrites := s.headWrites ++ [status] }
    match out with
    | .ok _ => (.ok true, s')
    | .error e => (.error e, s')
  else (.ok false, s)

/-- `ResponseState.safeWriteHeaders` (lines 136-151): guarded header write
whose `try/catch` converts any transport exception into `false`. -/
def safeWriteHeaders (status : Nat) (out : Except String Unit) (s : ResponseState) :
    Bool × ResponseState :=
  if s.canWriteHeaders then
    match res_writeHead status out s with
    | (.ok _, s') => (true, s')
    | (.error _, s') => (false, s')
  else (false, s)

/-- `ResponseState.safeWrite` (lines 156-169): returns the result of
`res.write` under `canWrite`, `false` otherwise; exceptions are caught and
reported as `false`. -/
def safeWrite (out : Except String Bool) (data : String) (s : ResponseState) :
    Bool × ResponseState :=
  if s.canWrite then
    match res_write out data s with
    | (.ok b, s') => (b, s')
    | (.error _, s') => (false, s')
  else (false, s)

/-- `ResponseState.safeEnd` (lines 174-188). -/
def safeEnd (out : Except String Unit) (s : ResponseState) :
    Bool × ResponseState :=
  if s.canWrite then
    match res_end out s with
    | (.ok _, s') => (true, s')
    | (.error _, s') => (false, s')
  else (false, s)

/-- `ResponseState.destroy` (lines 272-287): unconditionally sets
`isDestroyed` and `isEnded`, then (when a socket is present) invokes
`res.socket.destroy()` inside a `try/catch` that swallows any failure, so
the socket-destroy outcome cannot affect the state. -/
def destroy (hasSocket : Bool) (s : ResponseState) : ResponseState :=
  let s1 := { s with isDestroyed := true, isEnded := true,
                     destroyCalls := s.destroyCalls + 1 }
  if hasSocket then { s1 with socketDestroys := s1.socketDestroys + 1 } else s1

/-- `ResponseState._performTermination` (lines 233-267): ends the response
via `safeEnd` only when `!isEnded && canWrite()`, then forces
`streamingCompleted` if a stream was active.  Nothing in the body can
throw (`safeEnd` swallows transport errors), so the embedding is a total
state transformer. -/
def performTermination (endOut : Except String Unit) (s : ResponseState) : ResponseState :=
  let s1 := if !s.isEnded && s.canWrite then (safeEnd endOut s).2 else s
  if s1.isStreaming && !s1.streamingCompleted then
    { s1 with streamingCompleted := true } else s1

/-- `ResponseState.coordinatedTermination` (lines 193-228) executed
without interleaving (a solo caller): joining an in-progress episode
changes nothing; otherwise the flag and reason are set, the termination is
performed, and the flag is cleared in the `finally`.  The interleaved
behaviour of concurrent callers is modelled separately by `stepF` below. -/
def coordinatedTermination (reason : String) (endOut : Except String Unit)
    (s : ResponseState) : ResponseState :=
  if s.isTerminationInProgress then s
  else
    let s1 := { s with isTerminationInProgress := true, terminationReason := some reason }
    let s2 := performTermination endOut s1
    { s2 with isTerminationInProgress := false }

/-- `res.markStreamingStarted` (lines 125-127). -/
def markStreamingStarted (s : ResponseState) : ResponseState :=
  { s with isStreaming := true }

/-- `res.markStreamingCompleted` (lines 128-130). -/
def markStreamingCompleted (s : ResponseState) : ResponseState :=
  { s with streamingCompleted := true }

end ResponseState

namespace SafeSSEWriter

/-- The frame written by `SafeSSEWriter.writeDone` (line 447 of
`responseState.js`).  The JavaScript source is the single-quoted literal
`'data: [DONE]\\n\\n'`, whose value ends in the four characters
backslash, `n`, backslash, `n` — not in two newline characters. -/
def doneSentinel : String := "data: [DONE]\\n\\n"

/-- `SafeSSEWriter.writeEvent` (lines 419-439).  `json` is the result of
the external `JSON.stringify(data)`.  The `try/catch` is vacuous in the
embedding because `safeWrite` already catches transport errors. -/
def writeEvent (json : String) (eventType : Option String) (out : Except String Bool)
    (s : ResponseState) : Bool × ResponseState :=
  if !s.canWrite then (false, s)
  else
    let sseData := "data: " ++ json ++ "\n\n"
    let sseData := match eventType with
      | some t => "event: " ++ t ++ "\n" ++ sseData
      | none => sseData
    ResponseState.safeWrite out sseData s

/-- `SafeSSEWriter.writeDone` (lines 441-455): under the `canWrite` guard,
forwards `doneSentinel` through `safeWrite` and returns its result. -/
def writeDone (out : Except String Bool) (s : ResponseState) : Bool × ResponseState :=
  if !s.canWrite then (false, s)
  else ResponseState.safeWrite out doneSentinel s

end SafeSSEWriter

/-- The JSON body produced by `JSON.stringify(errorResponse)` in
`withStreamingErrorBoundary` (lines 369-377). -/
def errorResponseBody : String :=
  "\x7b\"error\":\x7b\"message\":\"Internal streaming error\",\"type\":\"api_error\",\"code\":\"streaming_error\"\x7d\x7d"

/-- Result of `withStreamingErrorBoundary`: the value returned or error
re-thrown, the final response state, and whether the structured-500-payload
branch (lines 362-384) was taken. -/
structure BoundaryResult (α : Type) where
  result : Except String α
  rs : ResponseState
  payloadAttempted : Bool

/-- The `errorHandler(error, responseState)` call of
`withStreamingErrorBoundary` (lines 394-403): the handler is an abstract
collaborator that may mutate the state and may throw; a thrown error is
logged and swallowed, the mutations made before the throw persist. -/
def runErrorHandler (eh : Option (ResponseState → Except String Unit × ResponseState))
    (s : ResponseState) : ResponseState :=
  match eh with
  | none => s
  | some f => (f s).2

/-- `withStreamingErrorBoundary` (lines 341-409).  `fn` is the handler
(abstract, may mutate the state and may throw); on a thrown error the
wrapper performs coordinated termination with reason `"error_boundary"`
(failures caught), attempts the structured 500 payload only under the
`res.canWriteHeaders()` guard, runs the optional error handler, force-calls
`destroy()` and re-throws the original error.  The transport outcomes of
the termination end, the 500 header write, the payload chunk write and the
payload end are the `termEndOut`, `headOut`, `payloadWriteOut` and
`payloadEndOut` parameters. -/
def withStreamingErrorBoundary {α : Type}
    (fn : ResponseState → Except String α × ResponseState)
    (errorHandler : Option (ResponseState → Except String Unit × ResponseState))
    (termEndOut headOut payloadEndOut : Except String Unit)
    (payloadWriteOut : Except String Bool)
    (hasSocket : Bool) (s : ResponseState) : BoundaryResult α :=
  match fn s with
  | (.ok v, s1) => ⟨.ok v, s1, false⟩
  | (.error e, s1) =>
    let s2 := ResponseState.coordinatedTermination "error_boundary" termEndOut s1
    if s2.canWriteHeaders then
      let s3 := (ResponseState.safeWriteHeaders 500 headOut s2).2
      let s4 := (ResponseState.safeWrite payloadWriteOut errorResponseBody s3).2
      let s5 := (ResponseState.safeEnd payloadEndOut s4).2
      let s6 := runErrorHandler errorHandler s5
      ⟨.error e, ResponseState.destroy hasSocket s6, true⟩
    else
      let s6 := runErrorHandler errorHandler s2
      ⟨.error e, ResponseState.destroy hasSocket s6, false⟩

/-- The operations a caller can perform on one `ResponseState` through its
public surface (overridden transport methods, safe accessors, termination,
destroy and the SSE writer), each carrying the outcome of the transport
invocation it may make.  Used to state "no subsequent operation re-enables
writing". -/
inductive Op where
  | opWriteHead (status : Nat) (out : Except String Unit)
  | opWrite (out : Except String Bool) (data : String)
  | opEnd (out : Except String Unit)
  | opSafeWriteHead (status : Nat) (out : Except String Unit)
  | opSafeWriteHeaders (status : Nat) (out : Except String Unit)
  | opSafeWrite (out : Except String Bool) (data : String)
  | opSafeEnd (out : Except String Unit)
  | opPerformTermination (out : Except String Unit)
  | opCoordinatedTermination (reason : String) (out : Except String Unit)
  | opDestroy (hasSocket : Bool)
  | opMarkStreamingStarted
  | opMarkStreamingCompleted
  | opWriteEvent (json : String) (eventType : Option String) (out : Except String Bool)
  | opWriteDone (out : Except String Bool)

/-- Effect of one operation on the state (return values discarded). -/
def applyOp (s : ResponseState) : Op → ResponseState
  | .opWriteHead status out => (ResponseState.res_writeHead status out s).2
  | .opWrite out data => (ResponseState.res_write out data s).2
  | .opEnd out => (ResponseState.res_end out s).2
  | .opSafeWriteHead status out => (ResponseState.res_safeWriteHead status out s).2
  | .opSafeWriteHeaders status out => (ResponseState.safeWriteHeaders status out s).2
  | .opSafeWrite out data => (ResponseState.safeWrite out data s).2
  | .opSafeEnd out => (ResponseState.safeEnd out s).2
  | .opPerformTermination out => ResponseState.performTermination out s
  | .opCoordinatedTermination reason out => ResponseState.coordinatedTermination reason out s
  | .opDestroy hasSocket => ResponseState.destroy hasSocket s
  | .opMarkStreamingStarted => ResponseState.markStreamingStarted s
  | .opMarkStreamingCompleted => ResponseState.markStreamingCompleted s
  | .opWriteEvent json eventType out => (SafeSSEWriter.writeEvent json eventType out s).2
  | .opWriteDone out => (SafeSSEWriter.writeDone out s).2

/-- A sequence of operations applied in order. -/
def applyOps (ops : List Op) (s : ResponseState) : ResponseState :=
  ops.foldl applyOp s

/-- Observable events of the `ResponseManager` end interception, in the
order they occur: the `isEnded` flag being set, callback number `i` being
invoked, and the forward to `originalEnd` (`withArgs` records whether the
`(chunk, encoding)` arguments were forwarded, lines 58-63). -/
inductive MEvent where
  | endedSet
  | cbRun (i : Nat)
  | origEnd (withArgs : Bool)
deriving Repr, DecidableEq

/-- State of one `ResponseManager` (`responseManager.js`, lines 7-21).
Registered end-callbacks are abstracted to their outcomes
(`.ok ()` = the callback returned, `.error e` = it threw `e`);
`resHeadersSent` is the transport's own authoritative `res.headersSent`
flag consulted by `areHeadersSent` (line 98); `origWriteHeadCalls` and
`originalEndCalls` count the forwards to the stored original methods and
`events` records the interception events in order. -/
structure ResponseManager where
  isEnded : Bool := false
  headersSent : Bool := false
  resHeadersSent : Bool := false
  endCallbacks : List (Except String Unit) := []
  origWriteHeadCalls : Nat := 0
  originalEndCalls : Nat := 0
  events : List MEvent := []
deriving Repr, DecidableEq

/-- The state produced by the `ResponseManager` constructor. -/
def ResponseManager.create : ResponseManager := {}

namespace ResponseManager

/-- `ResponseManager.onEnd` (lines 83-85): pushes a callback. -/
def onEnd (cb : Except String Unit) (m : ResponseManager) : ResponseManager :=
  { m with endCallbacks := m.endCallbacks ++ [cb] }

/-- `ResponseManager.areHeadersSent` (lines 97-99):
`headersSent || res.headersSent`. -/
def areHeadersSent (m : ResponseManager) : Bool :=
  m.headersSent || m.resHeadersSent

/-- `ResponseManager.hasEnded` (lines 90-92). -/
def hasEnded (m : ResponseManager) : Bool :=
  m.isEnded

/-- The `res.writeHead` shim installed by `_trackHeaders` (lines 70-78):
sets `headersSent` then forwards to the original. -/
def trackedWriteHead (m : ResponseManager) : ResponseManager :=
  { m with headersSent := true, origWriteHeadCalls := m.origWriteHeadCalls + 1 }

/-- The callback loop of the intercepted `end` (lines 40-56): each
callback is invoked in order; a throwing callback is logged, then the
error is re-thrown out of `end` when `areHeadersSent()` is false and
swallowed (the loop continuing) when it is true.  `i` is the index of the
first callback of `cbs` in the registered list. -/
def runEndCallbacks : Nat → List (Except String Unit) → ResponseManager →
    Except String Unit × ResponseManager
  | _, [], m => (.ok (), m)
  | i, cb :: rest, m =>
    let m1 := { m with events := m.events ++ [MEvent.cbRun i] }
    match cb with
    | .ok _ => runEndCallbacks (i + 1) rest m1
    | .error e =>
      if m1.areHeadersSent then runEndCallbacks (i + 1) rest m1
      else (.error e, m1)

/-- The `res.end` override installed by `_overrideEnd` (lines 26-65): a
second invocation is a logged no-op; the first sets `isEnded` *before*
running the callbacks, runs them, then forwards to `originalEnd`
(without the `(chunk, encoding)` arguments when `headersSent`).  `endOut`
is the outcome of the `originalEnd` invocation. -/
def resEnd (endOut : Except String Unit) (m : ResponseManager) :
    Except String Unit × ResponseManager :=
  if m.isEnded then (.ok (), m)
  else
    let m1 := { m with isEnded := true, events := m.events ++ [MEvent.endedSet] }
    match runEndCallbacks 0 m1.endCallbacks m1 with
    | (.ok _, m2) =>
      let m3 := { m2 with originalEndCalls := m2.originalEndCalls + 1,
                          events := m2.events ++ [MEvent.origEnd (!m2.headersSent)] }
      (endOut, m3)
    | (.error e, m2) => (.error e, m2)

end ResponseManager

/-- Suspension phase of one logical caller of `coordinatedTermination` in
the cooperative (single-threaded, `await`-interleaved) execution model:
not yet started, suspended at `await this.terminationLock` as the episode
driver (line 218) or as a joiner (line 201, which captured the episode's
awaitable), or resolved with an outcome (`.error e` = the call rejected). -/
inductive CallPhase where
  | idle
  | driverWait
  | joinerWait (lockOut : Except String Unit)
  | done (out : Except String Unit)
deriving Repr, DecidableEq

/-- Global state of one `ResponseState` together with `n` logical callers
of `coordinatedTermination` (`phases.length = n`).  `lockOut` is the
outcome with which the current `terminationLock` settles (initially
`Promise.resolve()`, line 20); `performCount` counts executions of
`_performTermination`. -/
structure GState where
  rs : ResponseState
  lockOut : Except String Unit
  performCount : Nat
  phases : List CallPhase
deriving Repr, DecidableEq

/-- Initial global state: a response state with no termination episode in
flight and `n` callers yet to run. -/
def GState.init (rs0 : ResponseState) (n : Nat) : GState :=
  ⟨rs0, Except.ok (), 0, List.replicate n CallPhase.idle⟩

/-- Scheduler events.  `start i reason endOut pOut` runs caller `i`'s
synchronous entry segment of `coordinatedTermination reason` (lines
193-216 contain no `await`, so the segment is atomic): if an episode is in
progress the caller becomes a joiner of it, otherwise it becomes the
driver — it sets the flag and reason, runs `_performTermination`
synchronously (the body has no `await`) and installs the new lock.
`endOut` is the transport outcome of the terminal write should the driver
perform one, and `pOut` the outcome with which the episode's awaitable
settles (the faithful value is `.ok ()`, since the embedded
`_performTermination` cannot throw; an `.error` value models the internal
termination failure hypothesized by the spec).  `resume i` runs caller
`i`'s continuation after its awaited lock settles: the driver clears
`isTerminationInProgress` in its `finally` and resolves normally (its
`catch` logs a rejection), a joiner resolves with the outcome of the
awaitable it captured (line 201 has no `try/catch`). -/
inductive Ev where
  | start (i : Nat) (reason : String) (endOut pOut : Except String Unit)
  | resume (i : Nat)
deriving Repr, DecidableEq

/-- Whether an event is the entry segment of a call. -/
def Ev.isStart : Ev → Bool
  | .start _ _ _ _ => true
  | .resume _ => false

/-- One scheduler step; `none` when the event is not enabled. -/
def stepF (g : GState) : Ev → Option GState
  | Ev.start i reason endOut pOut =>
    if i < g.phases.length then
      if g.phases.getD i CallPhase.idle = CallPhase.idle then
        if g.rs.isTerminationInProgress then
          some { g with phases := g.phases.set i (CallPhase.joinerWait g.lockOut) }
        else
          some { g with
            rs := ResponseState.performTermination endOut
              { g.rs with isTerminationInProgress := true, terminationReason := some reason },
            lockOut := pOut,
            performCount := g.performCount + 1,
            phases := g.phases.set i CallPhase.driverWait }
      else none
    else none
  | Ev.resume i =>
    match g.phases.getD i CallPhase.idle with
    | CallPhase.driverWait =>
      some { g with rs := { g.rs with isTerminationInProgress := false },
                    phases := g.phases.set i (CallPhase.done (Except.ok ())) }
    | CallPhase.joinerWait out =>
      some { g with phases := g.phases.set i (CallPhase.done out) }
    | _ => none

/-- Run a schedule of events; `none` when some event is not enabled. -/
def runEvs : List Ev → GState → Option GState
  | [], g => some g
  | e :: evs, g =>
    match stepF g e with
    | some g' => runEvs evs g'
    | none => none

/-- A call to one of the two guarded writers of a `ResponseState`, with
the outcome the transport would produce if it were reached. -/
inductive SafeCall where
  | swrite (out : Except String Bool) (data : String)
  | sheaders (status : Nat) (out : Except String Unit)

/-- Execute a sequence of `safeWrite`/`safeWriteHeaders` calls, collecting
the returned booleans. -/
def runSafeCalls : List SafeCall → ResponseState → List Bool × ResponseState
  | [], s => ([], s)
  | SafeCall.swrite out data :: rest, s =>
    let r1 := ResponseState.safeWrite out data s
    let r2 := runSafeCalls rest r1.2
    (r1.1 :: r2.1, r2.2)
  | SafeCall.sheaders status out :: rest, s =>
    let r1 := ResponseState.safeWriteHeaders status out s
    let r2 := runSafeCalls rest r1.2
    (r1.1 :: r2.1, r2.2)

/-- Execute a sequence of `safeWriteHeaders` calls (status code and
transport outcome for each), collecting the returned booleans. -/
def runHeaderCalls : List (Nat × Except String Unit) → ResponseState → List Bool × ResponseState
  | [], s => ([], s)
  | (status, out) :: rest, s =>
    let r1 := ResponseState.safeWriteHeaders status out s
    let r2 := runHeaderCalls rest r1.2
    (r1.1 :: r2.1, r2.2)

/-- Invariant of the termination model: either `_performTermination` has
already executed at least once, or nothing has happened yet (no episode in
flight and every caller still idle).  Holds along every schedule and shows
a caller can only be resolved after the termination has executed. -/
def InvQ (g : GState) : Prop :=
  1 ≤ g.performCount ∨
    (g.rs.isTerminationInProgress = false ∧
      ∀ i, g.phases.getD i CallPhase.idle = CallPhase.idle)

/-- Invariant of the termination model: either the response is already
ended-or-destroyed, or nothing has happened yet.  Holds along every
schedule started with no episode in flight. -/
def InvEnds (g : GState) : Prop :=
  (g.rs.isEnded || g.rs.isDestroyed) = true ∨
    (g.rs.isTerminationInProgress = false ∧
      ∀ i, g.phases.getD i CallPhase.idle = CallPhase.idle)

/-- Invariant of the start phase of a concurrent batch of
`coordinatedTermination` calls (no caller has resumed yet): either no call
has started an episode, or exactly one has — it is still in flight and has
added at most one terminal write.  `e0` is the initial terminal-write
count. -/
def InvOnce (e0 : Nat) (g : GState) : Prop :=
  (g.performCount = 0 ∧ g.rs.isTerminationInProgress = false ∧ g.rs.endWrites = e0) ∨
    (g.performCount = 1 ∧ g.rs.isTerminationInProgress = true ∧ g.rs.endWrites ≤ e0 + 1)

/-- Final state of the two-caller schedule used to witness the
single-flight theorem: both calls resolved, one execution of the internal
termination, one terminal write. -/
def c1gf : GState :=
  ⟨{ isEnded := true, terminationReason := some "r1", endWrites := 1 },
    Except.ok (), 1, [CallPhase.done (Except.ok ()), CallPhase.done (Except.ok ())]⟩

/-- Final state of the one-caller schedule used to witness the
termination-closes theorem. -/
def c10gf : GState :=
  ⟨{ isEnded := true, terminationReason := some "timeout", endWrites := 1 },
    Except.ok (), 1, [CallPhase.done (Except.ok ())]⟩

/-- A concrete handler that throws `"boom"` without touching the state,
used to exercise the error-boundary theorems. -/
def boomHandler : ResponseState → Except String Unit × ResponseState :=
  fun s => (Except.error "boom", s)

theorem ResponseState.canWrite_of_destroyed {s : ResponseState} (h : s.isDestroyed = true) :
    s.canWrite = false := by
  simp [ResponseState.canWrite, h]

theorem ResponseState.canWriteHeaders_of_destroyed {s : ResponseState} (h : s.isDestroyed = true) :
    s.canWriteHeaders = false := by
  simp [ResponseState.canWriteHeaders, h]

theorem ResponseState.canWrite_of_ended {s : ResponseState} (h : s.isEnded = true) :
    s.canWrite = false := by
  simp [ResponseState.canWrite, h]

theorem ResponseState.canWriteHeaders_of_ended {s : ResponseState} (h : s.isEnded = true) :
    s.canWriteHeaders = false := by
  simp [ResponseState.canWriteHeaders, h]

theorem applyOp_destroyed_mono (o : Op) (s : ResponseState) (h : s.isDestroyed = true) :
    (applyOp s o).isDestroyed = true := by
  cases o <;>
    simp_all [applyOp, ResponseState.res_writeHead, ResponseState.res_write,
      ResponseState.res_end, ResponseState.res_safeWriteHead, ResponseState.safeWriteHeaders,
      ResponseState.safeWrite, ResponseState.safeEnd, ResponseState.performTermination,
      ResponseState.coordinatedTermination, ResponseState.destroy, ResponseState.canWrite,
      ResponseState.canWriteHeaders, ResponseState.markStreamingStarted,
      ResponseState.markStreamingCompleted, SafeSSEWriter.writeEvent, SafeSSEWriter.writeDone] <;>
    (repeat' split) <;> first | rfl | simp_all

theorem applyOps_destroyed_mono (ops : List Op) (s : ResponseState) (h : s.isDestroyed = true) :
    (applyOps ops s).isDestroyed = true := by
  induction ops generalizing s with
  | nil => exact h
  | cons o ops ih => exact ih (applyOp s o) (applyOp_destroyed_mono o s h)

theorem destroy_destroyed (hs : Bool) (s : ResponseState) :
    (ResponseState.destroy hs s).isDestroyed = true := by
  cases hs <;> rfl

/-- C4 counterexample: the claim "a second call to `destroy()` does not
attempt a second close of the underlying connection (`socket.destroy` is
invoked at most once per ResponseState)" is false: `destroy` (lines
272-287) has no idempotence guard, so two `destroy()` calls on a fresh
`ResponseState` with a socket invoke `socket.destroy()` twice. -/
theorem c4_cex :
    (ResponseState.destroy true (ResponseState.destroy true ResponseState.initial)).socketDestroys = 2 ∧
    ¬ (ResponseState.destroy true (ResponseState.destroy true ResponseState.initial)).socketDestroys ≤ 1 := by
  decide

/-- C4 amended: after the first `destroy()`, `canWrite()` and
`canWriteHeaders()` return `false` forever (no sequence of subsequent
operations on the state re-enables them); however, each call to
`destroy()` — not merely the first — invokes `socket.destroy()` once
when a socket is present (its failures being swallowed), so the
underlying close is attempted once per `destroy()` call rather than at
most once per `ResponseState`. -/
theorem c4_destroy_terminal (hs : Bool) (s : ResponseState) (ops : List Op) :
    ResponseState.canWrite (applyOps ops (ResponseState.destroy hs s)) = false ∧
    ResponseState.canWriteHeaders (applyOps ops (ResponseState.destroy hs s)) = false ∧
    ∀ hs2 : Bool, (ResponseState.destroy hs2 (ResponseState.destroy hs s)).socketDestroys =
      s.socketDestroys + (cond hs 1 0) + (cond hs2 1 0) := by
  have hd : (applyOps ops (ResponseState.destroy hs s)).isDestroyed = true :=
    applyOps_destroyed_mono ops _ (destroy_destroyed hs s)
  refine ⟨ResponseState.canWrite_of_destroyed hd,
    ResponseState.canWriteHeaders_of_destroyed hd, ?_⟩
  intro hs2
  cases hs <;> cases hs2 <;> simp [ResponseState.destroy]

/-- C5 (code bug): on a fresh, writable `ResponseState` with a succeeding
transport, `writeDone` returns `true` and hands the transport exactly one
frame — but that frame is `doneSentinel`, which ends in the four literal
characters backslash-`n`-backslash-`n` (the JavaScript single-quoted
literal `'data: [DONE]\\n\\n'` on line 447 is double-escaped), not in the
two newline characters required by the spec's `"data: [DONE]\n\n"`
terminator and produced for ordinary events by `writeEvent`. -/
theorem c5_writeDone_sentinel_bug :
    (SafeSSEWriter.writeDone (Except.ok true) ResponseState.initial).1 = true ∧
    (SafeSSEWriter.writeDone (Except.ok true) ResponseState.initial).2.chunkWrites
      = [SafeSSEWriter.doneSentinel] ∧
    SafeSSEWriter.doneSentinel ≠ "data: [DONE]\n\n" ∧
    SafeSSEWriter.doneSentinel = "data: [DONE]" ++ String.mk ['\\', 'n', '\\', 'n'] := by
  decide

/-- C7: once `isEnded` is true, every sequence of `safeWrite` and
`safeWriteHeaders` calls returns `false` at each call and leaves the state
(in particular the transport instrumentation) untouched, for every
transport outcome — both safe writers catch transport exceptions, which
the `Bool × ResponseState` result type of the embedding makes structural,
so no call can throw. -/
theorem c7_write_after_close (s : ResponseState) (h : s.isEnded = true)
    (calls : List SafeCall) :
    runSafeCalls calls s = (calls.map (fun _ => false), s) := by
  induction calls with
  | nil => rfl
  | cons c rest ih =>
    cases c with
    | swrite out data =>
      have h1 : ResponseState.safeWrite out data s = (false, s) := by
        simp [ResponseState.safeWrite, ResponseState.canWrite_of_ended h]
      simp [runSafeCalls, h1, ih]
    | sheaders status out =>
      have h1 : ResponseState.safeWriteHeaders status out s = (false, s) := by
        simp [ResponseState.safeWriteHeaders, ResponseState.canWriteHeaders_of_ended h]
      simp [runSafeCalls, h1, ih]

/-- Witness for the write-after-close theorem at a concrete ended state
and concrete calls (one of which has a throwing transport). -/
theorem c7_witness :
    runSafeCalls [SafeCall.swrite (Except.error "broken pipe") "x",
        SafeCall.sheaders 200 (Except.ok ())]
      { ResponseState.initial with isEnded := true }
      = ([false, false], { ResponseState.initial with isEnded := true }) :=
  c7_write_after_close { ResponseState.initial with isEnded := true } rfl
    [SafeCall.swrite (Except.error "broken pipe") "x", SafeCall.sheaders 200 (Except.ok ())]

theorem safeWriteHeaders_closed {s : ResponseState}
    (h : ResponseState.canWriteHeaders s = false) (status : Nat) (out : Except String Unit) :
    ResponseState.safeWriteHeaders status out s = (false, s) := by
  simp [ResponseState.safeWriteHeaders, h]

theorem runHeaderCalls_closed {s : ResponseState}
    (h : ResponseState.canWriteHeaders s = false)
    (calls : List (Nat × Except String Unit)) :
    runHeaderCalls calls s = (calls.map (fun _ => false), s) := by
  induction calls with
  | nil => rfl
  | cons c rest ih =>
    obtain ⟨status, out⟩ := c
    simp [runHeaderCalls, safeWriteHeaders_closed h, ih]

theorem canWriteHeaders_headersSent {s : ResponseState}
    (h : ResponseState.canWriteHeaders s = true) : s.isHeadersSent = false := by
  cases hhs : s.isHeadersSent
  · rfl
  · exfalso
    simp [ResponseState.canWriteHeaders, hhs] at h

theorem safeWriteHeaders_open_ok {s : ResponseState}
    (h : ResponseState.canWriteHeaders s = true) (status : Nat) (u : Unit) :
    ResponseState.safeWriteHeaders status (Except.ok u) s =
      (true, { s with isHeadersSent := true, headWrites := s.headWrites ++ [status] }) := by
  simp [ResponseState.safeWriteHeaders, ResponseState.res_writeHead, h,
    canWriteHeaders_headersSent h]

theorem safeWriteHeaders_open_error {s : ResponseState}
    (h : ResponseState.canWriteHeaders s = true) (status : Nat) (e : String) :
    ResponseState.safeWriteHeaders status (Except.error e) s =
      (false, { s with isHeadersSent := true, headWrites := s.headWrites ++ [status] }) := by
  simp [ResponseState.safeWriteHeaders, ResponseState.res_writeHead, h,
    canWriteHeaders_headersSent h]

theorem count_true_map_false {α : Type} (l : List α) :
    ((l.map (fun _ => false)).count true) = 0 := by
  induction l with
  | nil => rfl
  | cons a l ih => simpa [List.count_cons] using ih

theorem count_true_replicate_false (n : Nat) :
    ((List.replicate n false).count true) = 0 := by
  induction n with
  | zero => rfl
  | succ n ih => simpa [List.replicate, List.count_cons] using ih

/-- C8: for any sequence of `safeWriteHeaders` calls on one
`ResponseState` (the execution is single-threaded and `safeWriteHeaders`
contains no suspension point, so any interleaving is a sequence), the
transport's header-write operation is invoked at most once — the
recorded `headWrites` grows by at most one entry; at most one call
returns `true`; if headers can no longer be written every call returns
`false` and the state is untouched; and when the state is writable and
the first call's transport write succeeds, that first call returns `true`
and every other call returns `false`. -/
theorem c8_headers_at_most_once (s : ResponseState)
    (calls : List (Nat × Except String Unit)) :
    (runHeaderCalls calls s).2.headWrites.length ≤ s.headWrites.length + 1 ∧
    ((runHeaderCalls calls s).1.count true) ≤ 1 ∧
    (ResponseState.canWriteHeaders s = false →
      runHeaderCalls calls s = (calls.map (fun _ => false), s)) ∧
    (∀ status out rest, calls = (status, out) :: rest →
      ResponseState.canWriteHeaders s = true → out = Except.ok () →
      (runHeaderCalls calls s).1 = true :: rest.map (fun _ => false)) := by
  by_cases h : ResponseState.canWriteHeaders s = true
  · cases calls with
    | nil =>
      refine ⟨Nat.le_succ _, by simp [runHeaderCalls], fun hc => by simp_all, ?_⟩
      intro status out rest hcalls
      cases hcalls
    | cons c rest =>
      obtain ⟨status, out⟩ := c
      have hc : ResponseState.canWriteHeaders
          { s with isHeadersSent := true, headWrites := s.headWrites ++ [status] } = false := by
        simp [ResponseState.canWriteHeaders]
      have h2 := runHeaderCalls_closed hc rest
      cases out with
      | ok u =>
        have hrun : runHeaderCalls ((status, Except.ok u) :: rest) s =
            (true :: rest.map (fun _ => false),
              { s with isHeadersSent := true, headWrites := s.headWrites ++ [status] }) := by
          simp only [runHeaderCalls, safeWriteHeaders_open_ok h status u, h2]
        refine ⟨?_, ?_, fun hcf => by simp_all, ?_⟩
        · rw [hrun]
          simp
        · rw [hrun]
          simp only [List.count_cons, count_true_map_false]
          simp
        · intro status' out' rest' hcalls _ hok
          injection hcalls with hc1 hc2
          injection hc1 with hs1 hs2
          subst hs1
          subst hc2
          rw [hrun]
      | error e =>
        have hrun : runHeaderCalls ((status, Except.error e) :: rest) s =
            (false :: rest.map (fun _ => false),
              { s with isHeadersSent := true, headWrites := s.headWrites ++ [status] }) := by
          simp only [runHeaderCalls, safeWriteHeaders_open_error h status e, h2]
        refine ⟨?_, ?_, fun hcf => by simp_all, ?_⟩
        · rw [hrun]
          simp
        · rw [hrun]
          simp only [List.count_cons, count_true_map_false]
          simp
        · intro status' out' rest' hcalls _ hok
          injection hcalls with hc1 hc2
          injection hc1 with hs1 hs2
          rw [← hs2] at hok
          cases hok
  · have hf : ResponseState.canWriteHeaders s = false := by
      cases hcw : ResponseState.canWriteHeaders s
      · rfl
      · exact absurd hcw h
    have h2 := runHeaderCalls_closed hf calls
    refine ⟨?_, ?_, fun _ => h2, ?_⟩
    · rw [h2]
      exact Nat.le_succ _
    · rw [h2]
      rw [count_true_map_false]
      decide
    · intro status out rest hcalls hct
      exact absurd hct h

theorem runEndCallbacks_all_ok (cbs : List (Except String Unit))
    (hall : ∀ cb ∈ cbs, cb = Except.ok ()) :
    ∀ (i : Nat) (m : ResponseManager),
      ResponseManager.runEndCallbacks i cbs m =
        (Except.ok (), { m with events := m.events ++ (List.range' i cbs.length).map MEvent.cbRun }) := by
  induction cbs with
  | nil =>
    intro i m
    simp [ResponseManager.runEndCallbacks, List.range']
  | cons cb rest ih =>
    intro i m
    have hcb : cb = Except.ok () := hall cb (List.mem_cons_self _ _)
    subst hcb
    simp only [ResponseManager.runEndCallbacks]
    rw [ih (fun c hc => hall c (List.mem_cons_of_mem _ hc)) (i + 1)]
    simp [List.range', List.append_assoc]

theorem foldl_onEnd (cbs : List (Except String Unit)) :
    ∀ m : ResponseManager,
      (cbs.foldl (fun mm cb => ResponseManager.onEnd cb mm) m).endCallbacks
        = m.endCallbacks ++ cbs := by
  induction cbs with
  | nil => intro m; simp
  | cons cb rest ih =>
    intro m
    simp only [List.foldl_cons]
    rw [ih]
    simp [ResponseManager.onEnd]

/-- C3: the intercepted `end` of a `ResponseManager`, on its first
invocation, sets the `ended` flag before any callback runs (visible in
the event order), then runs every registered callback exactly once in
registration order (here: all callbacks returning normally), then
forwards to the real terminal write; any later invocation runs no
callback and does not forward.  The last conjunct records that `onEnd`
registration preserves order. -/
theorem c3_end_intercept (m : ResponseManager) (endOut : Except String Unit)
    (h1 : m.isEnded = false)
    (h2 : ∀ cb ∈ m.endCallbacks, cb = Except.ok ()) :
    (ResponseManager.resEnd endOut m).2.isEnded = true ∧
    (ResponseManager.resEnd endOut m).2.events =
      m.events ++ [MEvent.endedSet] ++ (List.range m.endCallbacks.length).map MEvent.cbRun
        ++ [MEvent.origEnd (!m.headersSent)] ∧
    (ResponseManager.resEnd endOut m).2.originalEndCalls = m.originalEndCalls + 1 ∧
    (∀ endOut2, ResponseManager.resEnd endOut2 (ResponseManager.resEnd endOut m).2 =
      (Except.ok (), (ResponseManager.resEnd endOut m).2)) ∧
    (∀ cbs : List (Except String Unit),
      (cbs.foldl (fun mm cb => ResponseManager.onEnd cb mm) ResponseManager.create).endCallbacks
        = cbs) := by
  have hrc := runEndCallbacks_all_ok m.endCallbacks h2 0
    { m with isEnded := true, events := m.events ++ [MEvent.endedSet] }
  have hrun : ResponseManager.resEnd endOut m =
      (endOut,
        { m with isEnded := true,
                 originalEndCalls := m.originalEndCalls + 1,
                 events := m.events ++ [MEvent.endedSet]
                   ++ (List.range m.endCallbacks.length).map MEvent.cbRun
                   ++ [MEvent.origEnd (!m.headersSent)] }) := by
    simp only [ResponseManager.resEnd, h1]
    rw [hrc]
    simp [List.range_eq_range', List.append_assoc]
  rw [hrun]
  refine ⟨rfl, rfl, rfl, ?_, fun cbs => by simpa using foldl_onEnd cbs ResponseManager.create⟩
  intro endOut2
  simp [ResponseManager.resEnd]

/-- Witness for the end-interception theorem: a manager with two normal
callbacks registered; first `end` sets the flag, runs both callbacks in
order, then forwards once. -/
theorem c3_witness :
    (ResponseManager.resEnd (Except.ok ())
        { ResponseManager.create with endCallbacks := [Except.ok (), Except.ok ()] }).2.isEnded
      = true ∧
    (ResponseManager.resEnd (Except.ok ())
        { ResponseManager.create with endCallbacks := [Except.ok (), Except.ok ()] }).2.events
      = [MEvent.endedSet, MEvent.cbRun 0, MEvent.cbRun 1, MEvent.origEnd true] :=
  ⟨(c3_end_intercept
      { ResponseManager.create with endCallbacks := [Except.ok (), Except.ok ()] }
      (Except.ok ()) rfl (by decide)).1,
   (c3_end_intercept
      { ResponseManager.create with endCallbacks := [Except.ok (), Except.ok ()] }
      (Except.ok ()) rfl (by decide)).2.1⟩

theorem runEndCallbacks_cons_ok (i : Nat) (rest : List (Except String Unit))
    (m : ResponseManager) (u : Unit) :
    ResponseManager.runEndCallbacks i (Except.ok u :: rest) m =
      ResponseManager.runEndCallbacks (i + 1) rest
        { m with events := m.events ++ [MEvent.cbRun i] } := rfl

theorem runEndCallbacks_cons_error (i : Nat) (rest : List (Except String Unit))
    (m : ResponseManager) (e : String) :
    ResponseManager.runEndCallbacks i (Except.error e :: rest) m =
      (if ({ m with events := m.events ++ [MEvent.cbRun i] } : ResponseManager).areHeadersSent
        then ResponseManager.runEndCallbacks (i + 1) rest
          { m with events := m.events ++ [MEvent.cbRun i] }
        else (Except.error e, { m with events := m.events ++ [MEvent.cbRun i] })) := rfl

theorem runEndCallbacks_swallow (cbs : List (Except String Unit)) :
    ∀ (i : Nat) (m : ResponseManager), ResponseManager.areHeadersSent m = true →
      (ResponseManager.runEndCallbacks i cbs m).1 = Except.ok () := by
  induction cbs with
  | nil => intro i m _; rfl
  | cons cb rest ih =>
    intro i m hm
    have hm1 : ResponseManager.areHeadersSent
        { m with events := m.events ++ [MEvent.cbRun i] } = true := hm
    cases cb with
    | ok u =>
      rw [runEndCallbacks_cons_ok]
      exact ih (i + 1) _ hm1
    | error e =>
      rw [runEndCallbacks_cons_error, if_pos hm1]
      exact ih (i + 1) _ hm1

theorem runEndCallbacks_first_error (pre : List (Except String Unit)) :
    ∀ (post : List (Except String Unit)) (e : String) (i : Nat) (m : ResponseManager),
      ResponseManager.areHeadersSent m = false →
      (∀ cb ∈ pre, cb = Except.ok ()) →
      (ResponseManager.runEndCallbacks i (pre ++ Except.error e :: post) m).1
        = Except.error e := by
  induction pre with
  | nil =>
    intro post e i m hm _
    have hm1 : ResponseManager.areHeadersSent
        { m with events := m.events ++ [MEvent.cbRun i] } = false := hm
    rw [List.nil_append, runEndCallbacks_cons_error, if_neg (by simp [hm1])]
  | cons cb pre ih =>
    intro post e i m hm hall
    have hcb : cb = Except.ok () := hall cb (List.mem_cons_self _ _)
    subst hcb
    have hm1 : ResponseManager.areHeadersSent
        { m with events := m.events ++ [MEvent.cbRun i] } = false := hm
    rw [List.cons_append, runEndCallbacks_cons_ok]
    exact ih post e (i + 1) _ hm1 (fun c hc => hall c (List.mem_cons_of_mem _ hc))

/-- C6: callback-failure policy of the intercepted `end`.  When the
response has not ended yet, headers are unsent, and the first failing
callback throws `e` (all callbacks before it returning normally), the
intercepted `end` re-raises `e` to its caller.  When headers have been
sent, a failing callback is logged and swallowed: `end` does not raise
(its outcome is the forwarded terminal write's, here succeeding). -/
theorem c6_callback_policy (m : ResponseManager) (endOut : Except String Unit) (e : String)
    (pre post : List (Except String Unit)) :
    (m.isEnded = false → ResponseManager.areHeadersSent m = false →
      (∀ cb ∈ pre, cb = Except.ok ()) →
      m.endCallbacks = pre ++ Except.error e :: post →
      (ResponseManager.resEnd endOut m).1 = Except.error e) ∧
    (ResponseManager.areHeadersSent m = true → endOut = Except.ok () →
      (ResponseManager.resEnd endOut m).1 = Except.ok ()) := by
  obtain ⟨mE, mH, mRH, mCbs, mW, mO, mEvs⟩ := m
  constructor
  · intro h1 h2 hpre hcb
    simp only at h1 hcb
    subst h1
    subst hcb
    have hm1 : ResponseManager.areHeadersSent
        ⟨true, mH, mRH, pre ++ Except.error e :: post, mW, mO, mEvs ++ [MEvent.endedSet]⟩
          = false := h2
    have hfirst := runEndCallbacks_first_error pre post e 0
      ⟨true, mH, mRH, pre ++ Except.error e :: post, mW, mO, mEvs ++ [MEvent.endedSet]⟩
      hm1 hpre
    simp only [ResponseManager.resEnd]
    cases hrr : ResponseManager.runEndCallbacks 0 (pre ++ Except.error e :: post)
        ⟨true, mH, mRH, pre ++ Except.error e :: post, mW, mO, mEvs ++ [MEvent.endedSet]⟩ with
    | mk r m2 =>
      rw [hrr] at hfirst
      subst hfirst
      simp [hrr]
  · intro hh hok
    subst hok
    by_cases hend : mE = true
    · subst hend
      rfl
    · have h1 : mE = false := by
        cases hE : mE
        · rfl
        · exact absurd hE hend
      subst h1
      have hm1 : ResponseManager.areHeadersSent
          ⟨true, mH, mRH, mCbs, mW, mO, mEvs ++ [MEvent.endedSet]⟩ = true := hh
      have hsw := runEndCallbacks_swallow mCbs 0
        ⟨true, mH, mRH, mCbs, mW, mO, mEvs ++ [MEvent.endedSet]⟩ hm1
      simp only [ResponseManager.resEnd]
      cases hrr : ResponseManager.runEndCallbacks 0 mCbs
          ⟨true, mH, mRH, mCbs, mW, mO, mEvs ++ [MEvent.endedSet]⟩ with
      | mk r m2 =>
        rw [hrr] at hsw
        subst hsw
        simp [hrr]

/-- Witness for the callback-failure-policy theorem: a manager whose
second callback throws with headers unsent re-raises the error from
`end`; a manager with the same callbacks but headers already sent
swallows it. -/
theorem c6_witness :
    (ResponseManager.resEnd (Except.ok ())
        { ResponseManager.create with
            endCallbacks := [Except.ok (), Except.error "cb blew up"] }).1
      = Except.error "cb blew up" ∧
    (ResponseManager.resEnd (Except.ok ())
        { ResponseManager.create with
            endCallbacks := [Except.ok (), Except.error "cb blew up"],
            headersSent := true }).1
      = Except.ok () :=
  ⟨(c6_callback_policy
      { ResponseManager.create with endCallbacks := [Except.ok (), Except.error "cb blew up"] }
      (Except.ok ()) "cb blew up" [Except.ok ()] []).1 rfl rfl (by decide) rfl,
   (c6_callback_policy
      { ResponseManager.create with
          endCallbacks := [Except.ok (), Except.error "cb blew up"], headersSent := true }
      (Except.ok ()) "cb blew up" [Except.ok ()] []).2 rfl rfl⟩

theorem performTermination_flag (out : Except String Unit) (s : ResponseState) :
    (ResponseState.performTermination out s).isTerminationInProgress
      = s.isTerminationInProgress := by
  obtain ⟨f1, f2, f3, f4, f5, f6, f7, f8, f9, f10, f11, f12⟩ := s
  cases f2 <;> cases f3 <;> cases f4 <;> cases f5 <;> cases out <;> rfl

theorem performTermination_ends (out : Except String Unit) (s : ResponseState) :
    ((ResponseState.performTermination out s).isEnded
      || (ResponseState.performTermination out s).isDestroyed) = true := by
  obtain ⟨f1, f2, f3, f4, f5, f6, f7, f8, f9, f10, f11, f12⟩ := s
  cases f2 <;> cases f3 <;> cases f4 <;> cases f5 <;> cases out <;> rfl

theorem performTermination_endWrites (out : Except String Unit) (s : ResponseState) :
    (ResponseState.performTermination out s).endWrites ≤ s.endWrites + 1 := by
  obtain ⟨f1, f2, f3, f4, f5, f6, f7, f8, f9, f10, f11, f12⟩ := s
  cases f2 <;> cases f3 <;> cases f4 <;> cases f5 <;> cases out <;>
    first | exact Nat.le_succ _ | exact Nat.le_refl _

theorem destroy_ended (hs : Bool) (s : ResponseState) :
    (ResponseState.destroy hs s).isEnded = true := by
  cases hs <;> rfl

theorem destroy_destroyCalls (hs : Bool) (s : ResponseState) :
    (ResponseState.destroy hs s).destroyCalls = s.destroyCalls + 1 := by
  cases hs <;> rfl

theorem one_le_destroy_destroyCalls (hs : Bool) (s : ResponseState) :
    1 ≤ (ResponseState.destroy hs s).destroyCalls := by
  rw [destroy_destroyCalls]
  exact Nat.succ_le_succ (Nat.zero_le _)

theorem canWriteHeaders_of_closed {s : ResponseState}
    (h : (s.isEnded || s.isDestroyed) = true) :
    ResponseState.canWriteHeaders s = false := by
  cases hE : s.isEnded
  · rw [hE] at h
    simp at h
    exact ResponseState.canWriteHeaders_of_destroyed h
  · exact ResponseState.canWriteHeaders_of_ended hE

theorem coordinatedTermination_closes (r : String) (out : Except String Unit)
    (s : ResponseState)
    (h : s.isTerminationInProgress = true → (s.isEnded || s.isDestroyed) = true) :
    ((ResponseState.coordinatedTermination r out s).isEnded
      || (ResponseState.coordinatedTermination r out s).isDestroyed) = true := by
  cases hf : s.isTerminationInProgress
  · simp only [ResponseState.coordinatedTermination, hf]
    simp
    have := performTermination_ends out
      { s with isTerminationInProgress := true, terminationReason := some r }
    simpa using this
  · simp only [ResponseState.coordinatedTermination, hf]
    simpa using h hf

theorem getD_replicate_idle (n : Nat) :
    ∀ i : Nat, (List.replicate n CallPhase.idle).getD i CallPhase.idle = CallPhase.idle := by
  induction n with
  | zero => intro i; cases i <;> rfl
  | succ n ih =>
    intro i
    cases i with
    | zero => rfl
    | succ j => exact ih j

theorem runEvs_append (a b : List Ev) (g : GState) :
    runEvs (a ++ b) g = (runEvs a g).bind (runEvs b) := by
  induction a generalizing g with
  | nil => rfl
  | cons e a ih =>
    simp only [List.cons_append, runEvs]
    cases h : stepF g e with
    | some g' => simp [ih]
    | none => simp

theorem runEvs_preserve (P : GState → Prop) (E : Ev → Prop)
    (pres : ∀ g e g', E e → stepF g e = some g' → P g → P g') :
    ∀ (evs : List Ev) (g g' : GState), (∀ e ∈ evs, E e) →
      runEvs evs g = some g' → P g → P g' := by
  intro evs
  induction evs with
  | nil =>
    intro g g' _ hrun hp
    simp only [runEvs, Option.some.injEq] at hrun
    rw [← hrun]
    exact hp
  | cons e evs ih =>
    intro g g' hE hrun hp
    simp only [runEvs] at hrun
    cases h : stepF g e with
    | none => rw [h] at hrun; cases hrun
    | some g1 =>
      rw [h] at hrun
      exact ih g1 g' (fun x hx => hE x (List.mem_cons_of_mem _ hx)) hrun
        (pres g e g1 (hE e (List.mem_cons_self _ _)) h hp)

theorem stepF_start_inv {g g' : GState} {i : Nat} {reason : String}
    {endOut pOut : Except String Unit}
    (h : stepF g (Ev.start i reason endOut pOut) = some g') :
    (g.rs.isTerminationInProgress = true ∧
      g' = { g with phases := g.phases.set i (CallPhase.joinerWait g.lockOut) }) ∨
    (g.rs.isTerminationInProgress = false ∧
      g' = { g with
        rs := ResponseState.performTermination endOut
          { g.rs with isTerminationInProgress := true, terminationReason := some reason },
        lockOut := pOut,
        performCount := g.performCount + 1,
        phases := g.phases.set i CallPhase.driverWait }) := by
  simp only [stepF] at h
  by_cases h1 : i < g.phases.length
  · rw [if_pos h1] at h
    by_cases h2 : g.phases.getD i CallPhase.idle = CallPhase.idle
    · rw [if_pos h2] at h
      cases hf : g.rs.isTerminationInProgress
      · rw [hf] at h
        simp only [Bool.false_eq_true, if_false, Option.some.injEq] at h
        exact Or.inr ⟨rfl, h.symm⟩
      · rw [hf] at h
        simp only [if_true, Option.some.injEq] at h
        exact Or.inl ⟨rfl, h.symm⟩
    · rw [if_neg h2] at h
      cases h
  · rw [if_neg h1] at h
    cases h

theorem stepF_resume_inv {g g' : GState} {i : Nat}
    (h : stepF g (Ev.resume i) = some g') :
    (g.phases.getD i CallPhase.idle = CallPhase.driverWait ∧
      g' = { g with rs := { g.rs with isTerminationInProgress := false },
                    phases := g.phases.set i (CallPhase.done (Except.ok ())) }) ∨
    (∃ out, g.phases.getD i CallPhase.idle = CallPhase.joinerWait out ∧
      g' = { g with phases := g.phases.set i (CallPhase.done out) }) := by
  simp only [stepF] at h
  cases hp : g.phases.getD i CallPhase.idle with
  | idle => rw [hp] at h; cases h
  | driverWait => rw [hp] at h; exact Or.inl ⟨rfl, (Option.some.inj h).symm⟩
  | joinerWait out => rw [hp] at h; exact Or.inr ⟨out, rfl, (Option.some.inj h).symm⟩
  | done out => rw [hp] at h; cases h

theorem InvQ_pres : ∀ (g : GState) (e : Ev) (g' : GState),
    True → stepF g e = some g' → InvQ g → InvQ g' := by
  intro g e g' _ hstep hI
  cases e with
  | start i reason endOut pOut =>
    rcases stepF_start_inv hstep with ⟨hf, rfl⟩ | ⟨hf, rfl⟩
    · cases hI with
      | inl h => exact Or.inl h
      | inr h => rw [h.1] at hf; cases hf
    · exact Or.inl (Nat.succ_le_succ (Nat.zero_le _))
  | resume i =>
    rcases stepF_resume_inv hstep with ⟨hp, rfl⟩ | ⟨out, hp, rfl⟩
    · cases hI with
      | inl h => exact Or.inl h
      | inr h => rw [h.2 i] at hp; cases hp
    · cases hI with
      | inl h => exact Or.inl h
      | inr h => rw [h.2 i] at hp; cases hp

theorem InvEnds_pres : ∀ (g : GState) (e : Ev) (g' : GState),
    True → stepF g e = some g' → InvEnds g → InvEnds g' := by
  intro g e g' _ hstep hI
  cases e with
  | start i reason endOut pOut =>
    rcases stepF_start_inv hstep with ⟨hf, rfl⟩ | ⟨hf, rfl⟩
    · cases hI with
      | inl h => exact Or.inl h
      | inr h => rw [h.1] at hf; cases hf
    · exact Or.inl (performTermination_ends endOut _)
  | resume i =>
    rcases stepF_resume_inv hstep with ⟨hp, rfl⟩ | ⟨out, hp, rfl⟩
    · cases hI with
      | inl h => exact Or.inl h
      | inr h => rw [h.2 i] at hp; cases hp
    · cases hI with
      | inl h => exact Or.inl h
      | inr h => rw [h.2 i] at hp; cases hp

theorem InvOnce_pres (e0 : Nat) : ∀ (g : GState) (e : Ev) (g' : GState),
    Ev.isStart e = true → stepF g e = some g' → InvOnce e0 g → InvOnce e0 g' := by
  intro g e g' hE hstep hI
  cases e with
  | resume i => cases hE
  | start i reason endOut pOut =>
    rcases stepF_start_inv hstep with ⟨hf, rfl⟩ | ⟨hf, rfl⟩
    · cases hI with
      | inl h => rw [h.2.1] at hf; cases hf
      | inr h => exact Or.inr h
    · cases hI with
      | inr h => rw [h.2.1] at hf; cases hf
      | inl h =>
        refine Or.inr ⟨by rw [h.1], ?_, ?_⟩
        · rw [performTermination_flag]
        · have hle := performTermination_endWrites endOut
            { g.rs with isTerminationInProgress := true, terminationReason := some reason }
          calc (ResponseState.performTermination endOut
                { g.rs with isTerminationInProgress := true,
                            terminationReason := some reason }).endWrites
              ≤ g.rs.endWrites + 1 := hle
            _ = e0 + 1 := by rw [h.2.2]

theorem keep_pres (c w : Nat) : ∀ (g : GState) (e : Ev) (g' : GState),
    Ev.isStart e = false → stepF g e = some g' →
    (g.performCount = c ∧ g.rs.endWrites = w) →
    (g'.performCount = c ∧ g'.rs.endWrites = w) := by
  intro g e g' hE hstep hI
  cases e with
  | start i reason endOut pOut => cases hE
  | resume i =>
    rcases stepF_resume_inv hstep with ⟨hp, rfl⟩ | ⟨out, hp, rfl⟩
    · exact hI
    · exact hI

/-- C1: single-flight coordinated termination.  For `n ≥ 1` concurrent
callers of `coordinatedTermination` on one `ResponseState` with no episode
already in flight — concurrency meaning every caller's synchronous entry
segment runs before any caller's continuation resumes, which is how the
JavaScript event loop schedules calls issued in the same turn — under
every such schedule in which all callers have resolved:
`_performTermination` executed exactly once, the transport received at
most one additional terminal write (at most one total from a fresh
state), and at every point of the schedule a caller can only be in the
resolved state once the termination execution has happened. -/
theorem c1_single_flight (n : Nat) (rs0 : ResponseState) (sEvs rEvs : List Ev) (gf : GState)
    (hn : 0 < n)
    (hflag : rs0.isTerminationInProgress = false)
    (hstarts : ∀ e ∈ sEvs, e.isStart = true)
    (hresumes : ∀ e ∈ rEvs, e.isStart = false)
    (hrun : runEvs (sEvs ++ rEvs) (GState.init rs0 n) = some gf)
    (hdone : ∀ i, i < n → ∃ out, gf.phases.getD i CallPhase.idle = CallPhase.done out) :
    gf.performCount = 1 ∧ gf.rs.endWrites ≤ rs0.endWrites + 1 ∧
    ∀ (pre : List Ev) (g' : GState),
      runEvs pre (GState.init rs0 n) = some g' →
      ∀ i out, g'.phases.getD i CallPhase.idle = CallPhase.done out →
        1 ≤ g'.performCount := by
  have happ := runEvs_append sEvs rEvs (GState.init rs0 n)
  rw [happ] at hrun
  cases hm : runEvs sEvs (GState.init rs0 n) with
  | none => rw [hm] at hrun; cases hrun
  | some gm =>
    rw [hm] at hrun
    have hrun2 : runEvs rEvs gm = some gf := hrun
    have hOnce : InvOnce rs0.endWrites gm :=
      runEvs_preserve (InvOnce rs0.endWrites) (fun e => e.isStart = true)
        (InvOnce_pres rs0.endWrites) sEvs (GState.init rs0 n) gm hstarts hm
        (Or.inl ⟨rfl, hflag, rfl⟩)
    have hKeep : gf.performCount = gm.performCount ∧ gf.rs.endWrites = gm.rs.endWrites :=
      runEvs_preserve
        (fun g => g.performCount = gm.performCount ∧ g.rs.endWrites = gm.rs.endWrites)
        (fun e => e.isStart = false) (keep_pres gm.performCount gm.rs.endWrites)
        rEvs gm gf hresumes hrun2 ⟨rfl, rfl⟩
    have hrunFull : runEvs (sEvs ++ rEvs) (GState.init rs0 n) = some gf := by
      rw [happ, hm]
      exact hrun2
    have hQ : InvQ gf :=
      runEvs_preserve InvQ (fun _ => True) InvQ_pres (sEvs ++ rEvs) (GState.init rs0 n) gf
        (fun _ _ => trivial) hrunFull (Or.inr ⟨hflag, getD_replicate_idle n⟩)
    obtain ⟨out0, hd0⟩ := hdone 0 hn
    have hge : 1 ≤ gf.performCount := by
      cases hQ with
      | inl h => exact h
      | inr h => rw [h.2 0] at hd0; cases hd0
    have hle : gf.performCount ≤ 1 ∧ gf.rs.endWrites ≤ rs0.endWrites + 1 := by
      cases hOnce with
      | inl h =>
        constructor
        · rw [hKeep.1, h.1]
          exact Nat.zero_le 1
        · rw [hKeep.2, h.2.2]
          exact Nat.le_succ _
      | inr h =>
        constructor
        · rw [hKeep.1, h.1]
        · rw [hKeep.2]
          exact h.2.2
    refine ⟨Nat.le_antisymm hle.1 hge, hle.2, ?_⟩
    intro pre g' hpre i out hdone'
    have hQ' : InvQ g' :=
      runEvs_preserve InvQ (fun _ => True) InvQ_pres pre (GState.init rs0 n) g'
        (fun _ _ => trivial) hpre (Or.inr ⟨hflag, getD_replicate_idle n⟩)
    cases hQ' with
    | inl h => exact h
    | inr h => rw [h.2 i] at hdone'; cases hdone'

/-- Witness for the single-flight theorem: two concurrent callers with
different reasons on a fresh state; the schedule runs both entries, then
both continuations — one termination execution and one terminal write. -/
theorem c1_witness : c1gf.performCount = 1 ∧
    c1gf.rs.endWrites ≤ ResponseState.initial.endWrites + 1 :=
  ⟨(c1_single_flight 2 ResponseState.initial
      [Ev.start 0 "r1" (Except.ok ()) (Except.ok ()),
        Ev.start 1 "r2" (Except.ok ()) (Except.ok ())]
      [Ev.resume 0, Ev.resume 1] c1gf
      (by decide) rfl (by decide) (by decide) (by decide)
      (by
        intro i hi
        match i, hi with
        | 0, _ => exact ⟨Except.ok (), rfl⟩
        | 1, _ => exact ⟨Except.ok (), rfl⟩)).1,
   (c1_single_flight 2 ResponseState.initial
      [Ev.start 0 "r1" (Except.ok ()) (Except.ok ()),
        Ev.start 1 "r2" (Except.ok ()) (Except.ok ())]
      [Ev.resume 0, Ev.resume 1] c1gf
      (by decide) rfl (by decide) (by decide) (by decide)
      (by
        intro i hi
        match i, hi with
        | 0, _ => exact ⟨Except.ok (), rfl⟩
        | 1, _ => exact ⟨Except.ok (), rfl⟩)).2.1⟩

/-- C10: after any call to `coordinatedTermination` resolves, the
`ResponseState` has `ended = true` or `destroyed = true`, so
`canWriteHeaders()` is false (first conjunct: along every schedule from a
state with no episode in flight, any resolved caller finds the state
ended-or-destroyed); consequently, in `withStreamingErrorBoundary` the
branch that writes the structured 500 payload after termination is never
taken for a handler error (second conjunct; its last hypothesis is the
episode invariant — an in-flight episode has already ended the response —
which the first conjunct's model establishes for states produced by the
guarded API). -/
theorem c10_termination_closes :
    (∀ (rs0 : ResponseState) (n : Nat) (evs : List Ev) (gf : GState)
        (i : Nat) (out : Except String Unit),
      rs0.isTerminationInProgress = false →
      runEvs evs (GState.init rs0 n) = some gf →
      gf.phases.getD i CallPhase.idle = CallPhase.done out →
      (gf.rs.isEnded || gf.rs.isDestroyed) = true ∧
        ResponseState.canWriteHeaders gf.rs = false) ∧
    (∀ (α : Type) (fn : ResponseState → Except String α × ResponseState)
        (eh : Option (ResponseState → Except String Unit × ResponseState))
        (termEndOut headOut payloadEndOut : Except String Unit)
        (payloadWriteOut : Except String Bool) (hasSocket : Bool)
        (s s1 : ResponseState) (e : String),
      fn s = (Except.error e, s1) →
      (s1.isTerminationInProgress = true → (s1.isEnded || s1.isDestroyed) = true) →
      (withStreamingErrorBoundary fn eh termEndOut headOut payloadEndOut payloadWriteOut
        hasSocket s).payloadAttempted = false) := by
  constructor
  · intro rs0 n evs gf i out hflag hrun hd
    have hE : InvEnds gf :=
      runEvs_preserve InvEnds (fun _ => True) InvEnds_pres evs (GState.init rs0 n) gf
        (fun _ _ => trivial) hrun (Or.inr ⟨hflag, getD_replicate_idle n⟩)
    cases hE with
    | inl h => exact ⟨h, canWriteHeaders_of_closed h⟩
    | inr h => rw [h.2 i] at hd; cases hd
  · intro α fn eh termEndOut headOut payloadEndOut payloadWriteOut hasSocket s s1 e hfn hinv
    have hclosed := coordinatedTermination_closes "error_boundary" termEndOut s1 hinv
    have hcw : ResponseState.canWriteHeaders
        (ResponseState.coordinatedTermination "error_boundary" termEndOut s1) = false :=
      canWriteHeaders_of_closed hclosed
    simp only [withStreamingErrorBoundary, hfn]
    rw [if_neg (by rw [hcw]; exact Bool.false_ne_true)]

/-- Witness for the termination-closes theorem: a single caller on a
fresh state resolves leaving the response ended, and a boundary around a
handler that throws on a fresh state does not attempt the 500 payload. -/
theorem c10_witness :
    ((c10gf.rs.isEnded || c10gf.rs.isDestroyed) = true ∧
      ResponseState.canWriteHeaders c10gf.rs = false) ∧
    (withStreamingErrorBoundary boomHandler none
      (Except.ok ()) (Except.ok ()) (Except.ok ()) (Except.ok true) true
      ResponseState.initial).payloadAttempted = false :=
  ⟨c10_termination_closes.1 ResponseState.initial 1
      [Ev.start 0 "timeout" (Except.ok ()) (Except.ok ()), Ev.resume 0] c10gf 0
      (Except.ok ()) rfl (by decide) rfl,
   c10_termination_closes.2 Unit boomHandler none
      (Except.ok ()) (Except.ok ()) (Except.ok ()) (Except.ok true) true
      ResponseState.initial ResponseState.initial "boom" rfl (by intro h; cases h)⟩

/-- C9: for a handler that throws `e`, `withStreamingErrorBoundary`
re-raises exactly `e` to its caller (never absorbing or replacing it),
always force-calls `destroy()` (so the final state is destroyed and
ended, with at least one `destroy` invocation), and attempts the
structured 500 payload exactly when `canWriteHeaders()` still holds after
the `coordinatedTermination("error_boundary")` call. -/
theorem c9_error_boundary {α : Type}
    (fn : ResponseState → Except String α × ResponseState)
    (eh : Option (ResponseState → Except String Unit × ResponseState))
    (termEndOut headOut payloadEndOut : Except String Unit)
    (payloadWriteOut : Except String Bool) (hasSocket : Bool)
    (s s1 : ResponseState) (e : String)
    (hfn : fn s = (Except.error e, s1)) :
    (withStreamingErrorBoundary fn eh termEndOut headOut payloadEndOut payloadWriteOut
        hasSocket s).result = Except.error e ∧
    (withStreamingErrorBoundary fn eh termEndOut headOut payloadEndOut payloadWriteOut
        hasSocket s).rs.isDestroyed = true ∧
    (withStreamingErrorBoundary fn eh termEndOut headOut payloadEndOut payloadWriteOut
        hasSocket s).rs.isEnded = true ∧
    1 ≤ (withStreamingErrorBoundary fn eh termEndOut headOut payloadEndOut payloadWriteOut
        hasSocket s).rs.destroyCalls ∧
    (withStreamingErrorBoundary fn eh termEndOut headOut payloadEndOut payloadWriteOut
        hasSocket s).payloadAttempted
      = ResponseState.canWriteHeaders
          (ResponseState.coordinatedTermination "error_boundary" termEndOut s1) := by
  simp only [withStreamingErrorBoundary, hfn]
  cases hcw : ResponseState.canWriteHeaders
      (ResponseState.coordinatedTermination "error_boundary" termEndOut s1) <;>
    exact ⟨rfl, destroy_destroyed _ _, destroy_ended _ _,
      one_le_destroy_destroyCalls _ _, rfl⟩

/-- Witness for the error-boundary theorem: a handler throwing `"boom"`
on a fresh state — the boundary re-raises `"boom"` and the final state is
destroyed. -/
theorem c9_witness :
    (withStreamingErrorBoundary boomHandler none
      (Except.ok ()) (Except.ok ()) (Except.ok ()) (Except.ok true) true
      ResponseState.initial).result = Except.error "boom" ∧
    (withStreamingErrorBoundary boomHandler none
      (Except.ok ()) (Except.ok ()) (Except.ok ()) (Except.ok true) true
      ResponseState.initial).rs.isDestroyed = true :=
  ⟨(c9_error_boundary boomHandler none
      (Except.ok ()) (Except.ok ()) (Except.ok ()) (Except.ok true) true
      ResponseState.initial ResponseState.initial "boom" rfl).1,
   (c9_error_boundary boomHandler none
      (Except.ok ()) (Except.ok ()) (Except.ok ()) (Except.ok true) true
      ResponseState.initial ResponseState.initial "boom" rfl).2.1⟩

/-- C2 counterexample: when the termination episode's awaitable settles
with a rejection (`pOut = .error "boom"`, the internal failure the claim
hypothesizes), a caller that merely joined the in-progress episode does
*not* resolve normally: `await this.terminationLock` on line 201 has no
`try/catch`, so the joiner's `coordinatedTermination` call rejects with
the internal failure, while the driving caller (line 217-227) catches,
logs and resolves normally.  Concretely: caller 0 drives and resolves
`ok`, caller 1 joins and resolves with the rejection. -/
theorem c2_cex :
    (runEvs [Ev.start 0 "timeout" (Except.ok ()) (Except.error "boom"),
        Ev.start 1 "client_disconnect" (Except.ok ()) (Except.ok ()),
        Ev.resume 1, Ev.resume 0]
      (GState.init ResponseState.initial 2)).map
        (fun g => (g.phases.getD 0 CallPhase.idle, g.phases.getD 1 CallPhase.idle))
      = some (CallPhase.done (Except.ok ()), CallPhase.done (Except.error "boom")) ∧
    CallPhase.done (Except.error "boom") ≠ CallPhase.done (Except.ok ()) := by
  decide

/-- C2 amended: if `_performTermination`'s awaitable settles with outcome
`pOut`, then in a two-caller concurrent schedule the driving caller's
`coordinatedTermination` resolves normally whatever `pOut` is (the
failure is caught and logged inside the driver), while the caller that
joined the already-in-progress episode resolves with `pOut` itself — the
internal failure is propagated (re-raised) to joiners, not to the
driver. -/
theorem c2_amended (rs0 : ResponseState) (hflag : rs0.isTerminationInProgress = false)
    (r1 r2 : String) (eo1 eo2 po2 pOut : Except String Unit) :
    (runEvs [Ev.start 0 r1 eo1 pOut, Ev.start 1 r2 eo2 po2, Ev.resume 1, Ev.resume 0]
        (GState.init rs0 2)).map
      (fun g => (g.phases.getD 0 CallPhase.idle, g.phases.getD 1 CallPhase.idle))
      = some (CallPhase.done (Except.ok ()), CallPhase.done pOut) := by
  have hf1 : (ResponseState.performTermination eo1
      { rs0 with isTerminationInProgress := true,
                 terminationReason := some r1 }).isTerminationInProgress = true := by
    rw [performTermination_flag]
  simp [runEvs, stepF, GState.init, hflag, hf1]

/-- Witness for the amended claim at a concrete rejecting episode: the
driver resolves `ok`, the joiner resolves with the `"boom"` rejection. -/
theorem c2_witness :
    (runEvs [Ev.start 0 "timeout" (Except.ok ()) (Except.error "boom"),
        Ev.start 1 "client_disconnect" (Except.ok ()) (Except.ok ()),
        Ev.resume 1, Ev.resume 0]
      (GState.init ResponseState.initial 2)).map
        (fun g => (g.phases.getD 0 CallPhase.idle, g.phases.getD 1 CallPhase.idle))
      = some (CallPhase.done (Except.ok ()), CallPhase.done (Except.error "boom")) :=
  c2_amended ResponseState.initial rfl "timeout" "client_disconnect"
    (Except.ok ()) (Except.ok ()) (Except.ok ()) (Except.error "boom")

/-- Witness for the at-most-once-headers theorem: three calls on a fresh
state, the first succeeding — transport receives one header write, the
calls return `true`, `false`, `false`. -/
theorem c8_witness :
    (runHeaderCalls [(200, Except.ok ()), (500, Except.ok ()), (404, Except.error "boom")]
        ResponseState.initial).1 = true :: [(500, Except.ok ()), (404, Except.error "boom")].map
          (fun _ => false) :=
  (c8_headers_at_most_once ResponseState.initial
      [(200, Except.ok ()), (500, Except.ok ()), (404, Except.error "boom")]).2.2.2
    200 (Except.ok ()) [(500, Except.ok ()), (404, Except.error "boom")] rfl rfl rfl

